import Mathlib

/-!
Shallow embedding of the risk-scoring core of `src/app.py`
(`AggregationPredictor`): per-amino-acid property tables, feature
extraction, weighted risk combination, threshold segmentation into
high-risk regions, and color-bucket mapping.  Python floats are modelled
as rationals, strings as lists of characters.
-/

namespace AggregationPredictor

/-- Hydrophobicity table (`self.hydrophobicity`); `.get(aa, 0)` default 0. -/
def hydrophobicity (c : Char) : ℚ :=
  if c = 'A' then 18/10 else if c = 'R' then -45/10 else if c = 'N' then -35/10
  else if c = 'D' then -35/10 else if c = 'C' then 25/10 else if c = 'Q' then -35/10
  else if c = 'E' then -35/10 else if c = 'G' then -4/10 else if c = 'H' then -32/10
  else if c = 'I' then 45/10 else if c = 'L' then 38/10 else if c = 'K' then -39/10
  else if c = 'M' then 19/10 else if c = 'F' then 28/10 else if c = 'P' then -16/10
  else if c = 'S' then -8/10 else if c = 'T' then -7/10 else if c = 'W' then -9/10
  else if c = 'Y' then -13/10 else if c = 'V' then 42/10 else 0

/-- Charge table (`self.charge`); `.get(aa, 0)` default 0. -/
def charge (c : Char) : ℚ :=
  if c = 'A' then 0 else if c = 'R' then 1 else if c = 'N' then 0
  else if c = 'D' then -1 else if c = 'C' then 0 else if c = 'Q' then 0
  else if c = 'E' then -1 else if c = 'G' then 0 else if c = 'H' then 1/2
  else if c = 'I' then 0 else if c = 'L' then 0 else if c = 'K' then 1
  else if c = 'M' then 0 else if c = 'F' then 0 else if c = 'P' then 0
  else if c = 'S' then 0 else if c = 'T' then 0 else if c = 'W' then 0
  else if c = 'Y' then 0 else if c = 'V' then 0 else 0

/-- Beta-sheet propensity table (`self.beta_propensity`); `.get(aa, 0)` default 0. -/
def beta_propensity (c : Char) : ℚ :=
  if c = 'A' then 83/100 else if c = 'R' then 93/100 else if c = 'N' then 89/100
  else if c = 'D' then 54/100 else if c = 'C' then 119/100 else if c = 'Q' then 110/100
  else if c = 'E' then 37/100 else if c = 'G' then 75/100 else if c = 'H' then 87/100
  else if c = 'I' then 160/100 else if c = 'L' then 130/100 else if c = 'K' then 74/100
  else if c = 'M' then 105/100 else if c = 'F' then 138/100 else if c = 'P' then 55/100
  else if c = 'S' then 75/100 else if c = 'T' then 119/100 else if c = 'W' then 137/100
  else if c = 'Y' then 147/100 else if c = 'V' then 170/100 else 0

/-- The 20 recognized amino-acid single-letter codes (the keys of the tables). -/
def aminoAcidCodes : List Char :=
  [ 'A', 'R', 'N', 'D', 'C', 'Q', 'E', 'G', 'H', 'I',
    'L', 'K', 'M', 'F', 'P', 'S', 'T', 'W', 'Y', 'V' ]

/-- Known aggregation-prone motifs (`self.aggregation_motifs`). -/
def aggregation_motifs : List (List Char) :=
  [ [ 'N', 'A', 'C' ],
    [ 'K', 'T', 'K', 'E' ],
    [ 'G', 'V', 'L', 'Y' ],
    [ 'V', 'L', 'Y', 'V', 'G' ],
    [ 'G', 'A', 'V', 'V', 'T' ] ]

/-- First 63 residues of `self.alpha_syn_sequence` (the end-to-end scenario input). -/
def alphaSynPrefix : List Char :=
  [ 'M', 'D', 'V', 'F', 'M', 'K', 'G', 'L', 'S', 'K', 'A', 'K', 'E', 'G', 'V', 'V',
    'A', 'A', 'A', 'E', 'K', 'T', 'K', 'Q', 'G', 'V', 'A', 'E', 'A', 'A', 'G', 'K',
    'T', 'K', 'E', 'G', 'V', 'L', 'Y', 'V', 'G', 'S', 'K', 'T', 'K', 'E', 'G', 'V',
    'V', 'H', 'G', 'V', 'A', 'T', 'V', 'A', 'E', 'K', 'T', 'K', 'E', 'Q', 'V' ]

/-- Window `[max(0, i - 2), min(len s, i + 3))` of the sliding-window features
(`window = 5`, `start = max(0, i - window//2)`, `end = min(len(sequence), i + window//2 + 1)`). -/
def windowIdx (s : List Char) (i : ℕ) : List ℕ :=
  List.range' (i - 2) (min s.length (i + 3) - (i - 2))

/-- Feature `local_hydrophobicity[i]`: `np.mean` of hydrophobicity over the
clipped window. -/
def localHydro (s : List Char) (i : ℕ) : ℚ :=
  ((windowIdx s i).map (fun j => hydrophobicity (s.getD j '*'))).sum
    / ((windowIdx s i).length : ℚ)

/-- Feature `charge_clustering[i]`: `np.sum` of `abs(charge)` over the
clipped window. -/
def chargeClustering (s : List Char) (i : ℕ) : ℚ :=
  ((windowIdx s i).map (fun j => |charge (s.getD j '*')|)).sum

/-- Start indices scanned for a motif: Python `range(len(sequence) - len(motif) + 1)`,
which is empty when the motif is longer than the sequence. -/
def motifStarts (s m : List Char) : List ℕ :=
  if m.length ≤ s.length then List.range (s.length - m.length + 1) else []

/-- Contribution of a motif occurrence starting at `j` to position `i`:
`max(0, 5 - distance) / 5` with `distance = abs(i - (j + len(motif)//2))`. -/
def occContrib (i j : ℕ) (m : List Char) : ℚ :=
  ((5 - Nat.dist i (j + m.length / 2) : ℕ) : ℚ) / 5

/-- Feature `motif_score[i]`: for each motif and each candidate start `j`,
if `sequence[j:j+len(motif)] == motif` then add the decayed contribution. -/
def motifScore (s : List Char) (i : ℕ) : ℚ :=
  (aggregation_motifs.map (fun m =>
    ((motifStarts s m).map (fun j =>
      if (s.drop j).take m.length = m then occContrib i j m else 0)).sum)).sum

/-- Term `hydro_risk = max(0, features['hydrophobicity'][i]) * 10`. -/
def hydroRisk (s : List Char) (i : ℕ) : ℚ :=
  max 0 (hydrophobicity (s.getD i '*')) * 10

/-- Term `beta_risk = features['beta_propensity'][i] * 15`. -/
def betaRisk (s : List Char) (i : ℕ) : ℚ :=
  beta_propensity (s.getD i '*') * 15

/-- Term `cluster_risk = max(0, features['local_hydrophobicity'][i]) * 8`. -/
def clusterRisk (s : List Char) (i : ℕ) : ℚ :=
  max 0 (localHydro s i) * 8

/-- Term `charge_risk = max(0, 3 - features['charge_clustering'][i]) * 5`. -/
def chargeRisk (s : List Char) (i : ℕ) : ℚ :=
  max 0 (3 - chargeClustering s i) * 5

/-- Term `motif_risk = features['motif_score'][i] * 25`. -/
def motifRisk (s : List Char) (i : ℕ) : ℚ :=
  motifScore s i * 25

/-- Sum `total_risk = hydro_risk + beta_risk + cluster_risk + charge_risk + motif_risk`. -/
def totalRisk (s : List Char) (i : ℕ) : ℚ :=
  hydroRisk s i + betaRisk s i + clusterRisk s i + chargeRisk s i + motifRisk s i

/-- Per-position score `min(100, max(0, total_risk))`; `s` is assumed upper-cased. -/
def riskScore (s : List Char) (i : ℕ) : ℚ :=
  min 100 (max 0 (totalRisk s i))

/-- Operation `calculate_aggregation_risk`: upper-case the sequence, then score every position. -/
def calculate_aggregation_risk (seq : List Char) : List ℚ :=
  (List.range (seq.map Char.toUpper).length).map (riskScore (seq.map Char.toUpper))

/-- The segmentation loop of `get_high_risk_regions`: `i` is the index of the head
of `scores` in the original list, `st` the pending region start (`start` in the
code, `None` when no region is open); at the end an open region is closed at the
last index. -/
def scanRegions (t : ℚ) : List ℚ → ℕ → Option ℕ → List (ℕ × ℕ)
  | [], _, none => []
  | [], i, some s => [(s, i - 1)]
  | sc :: rest, i, none =>
      if t ≤ sc then scanRegions t rest (i + 1) (some i)
      else scanRegions t rest (i + 1) none
  | sc :: rest, i, some s =>
      if sc < t then (s, i - 1) :: scanRegions t rest (i + 1) none
      else scanRegions t rest (i + 1) (some s)

/-- Operation `get_high_risk_regions`: score the sequence, then scan for maximal runs
of scores `>= threshold`. -/
def get_high_risk_regions (seq : List Char) (t : ℚ) : List (ℕ × ℕ) :=
  scanRegions t (calculate_aggregation_risk seq) 0 none

/-- The per-score branch of `get_color_map`. -/
def colorOf (score : ℚ) : String :=
  if score < 20 then "#00FF00"
  else if score < 40 then "#80FF00"
  else if score < 60 then "#FFFF00"
  else if score < 80 then "#FF8000"
  else "#FF0000"

/-- Operation `get_color_map`: one color per score. -/
def get_color_map (risk_scores : List ℚ) : List String :=
  risk_scores.map colorOf

/-- Claim-side definition of the motif score, transcribed from the spec's
words: for every occurrence (at every start index) of every motif, contribute
`max(0, 5 - |i - center|) / 5` with `center = occurrence_start + floor(len(motif)/2)`,
and sum all contributions. -/
def motifScoreSpec (s : List Char) (i : ℕ) : ℚ :=
  (aggregation_motifs.map (fun m =>
    ∑ j in (Finset.range (s.length + 1)).filter
        (fun j => j + m.length ≤ s.length ∧ (s.drop j).take m.length = m),
      ((max 0 (5 - |(i : ℤ) - ((j + m.length / 2 : ℕ) : ℤ)|) : ℤ) : ℚ) / 5)).sum

/-- Rank of a bucket color in the ordered low-to-very-high scale. -/
def colorRank (c : String) : ℕ :=
  if c = "#00FF00" then 0 else if c = "#80FF00" then 1 else if c = "#FFFF00" then 2
  else if c = "#FF8000" then 3 else if c = "#FF0000" then 4 else 5

end AggregationPredictor

open AggregationPredictor

/-! ### Helper lemmas -/

theorem list_sum_range_map (f : ℕ → ℚ) (n : ℕ) :
    ((List.range n).map f).sum = ∑ j in Finset.range n, f j := by
  induction n with
  | zero => simp
  | succ n ih =>
      rw [List.range_succ, List.map_append, List.sum_append, Finset.sum_range_succ, ih]
      simp

theorem list_sum_range'_map (f : ℕ → ℚ) (a n : ℕ) :
    ((List.range' a n).map f).sum = ∑ j in Finset.Ico a (a + n), f j := by
  induction n generalizing a with
  | zero => simp
  | succ n ih =>
      have h1 : a + (n + 1) = a + 1 + n := by omega
      rw [List.range'_succ a n 1, List.map_cons, List.sum_cons, ih (a + 1), h1,
        Finset.sum_eq_sum_Ico_succ_bot (show a < a + 1 + n by omega) f]

theorem calc_length (seq : List Char) :
    (calculate_aggregation_risk seq).length = seq.length := by
  simp [calculate_aggregation_risk]

theorem calc_getD (seq : List Char) (i : ℕ) (h : i < seq.length) :
    (calculate_aggregation_risk seq).getD i 0 = riskScore (seq.map Char.toUpper) i := by
  have h2 : i < (calculate_aggregation_risk seq).length := by rw [calc_length]; exact h
  rw [List.getD_eq_getElem _ _ h2]
  simp [calculate_aggregation_risk]

theorem motifScore_nonneg (s : List Char) (i : ℕ) : 0 ≤ motifScore s i := by
  apply List.sum_nonneg
  intro x hx
  obtain ⟨m, _, rfl⟩ := List.mem_map.mp hx
  apply List.sum_nonneg
  intro y hy
  obtain ⟨j, _, rfl⟩ := List.mem_map.mp hy
  split
  · have : (0:ℚ) ≤ ((5 - Nat.dist i (j + m.length / 2) : ℕ) : ℚ) := by positivity
    exact div_nonneg this (by norm_num)
  · exact le_refl 0

theorem table_defaults (c : Char) (h : c ∉ aminoAcidCodes) :
    hydrophobicity c = 0 ∧ charge c = 0 ∧ beta_propensity c = 0 := by
  simp only [aminoAcidCodes, List.mem_cons, List.not_mem_nil, or_false, not_or] at h
  obtain ⟨h1, h2, h3, h4, h5, h6, h7, h8, h9, h10,
    h11, h12, h13, h14, h15, h16, h17, h18, h19, h20⟩ := h
  refine ⟨?_, ?_, ?_⟩ <;>
    simp only [hydrophobicity, charge, beta_propensity, h1, h2, h3, h4, h5, h6, h7, h8, h9, h10,
      h11, h12, h13, h14, h15, h16, h17, h18, h19, h20, if_false, ite_false]

theorem beta_propensity_nonneg (c : Char) : 0 ≤ beta_propensity c := by
  by_cases hc : c ∈ aminoAcidCodes
  · fin_cases hc <;> simp +decide [beta_propensity] <;> norm_num
  · rw [(table_defaults c hc).2.2]

theorem totalRisk_nonneg (s : List Char) (i : ℕ) : 0 ≤ totalRisk s i := by
  unfold totalRisk hydroRisk betaRisk clusterRisk chargeRisk motifRisk
  have h1 : (0:ℚ) ≤ max 0 (hydrophobicity (s.getD i '*')) * 10 :=
    mul_nonneg (le_max_left 0 _) (by norm_num)
  have h2 : (0:ℚ) ≤ beta_propensity (s.getD i '*') * 15 :=
    mul_nonneg (beta_propensity_nonneg _) (by norm_num)
  have h3 : (0:ℚ) ≤ max 0 (localHydro s i) * 8 :=
    mul_nonneg (le_max_left 0 _) (by norm_num)
  have h4 : (0:ℚ) ≤ max 0 (3 - chargeClustering s i) * 5 :=
    mul_nonneg (le_max_left 0 _) (by norm_num)
  have h5 : (0:ℚ) ≤ motifScore s i * 25 :=
    mul_nonneg (motifScore_nonneg s i) (by norm_num)
  linarith

/-- Coverage invariant of the segmentation scan: a position `k` is covered by
some produced region exactly when either the open region already covers it, or
`k` falls in the unscanned suffix and its score meets the threshold. -/
theorem scanRegions_cover (t : ℚ) (scores : List ℚ) :
    ∀ (i0 : ℕ) (st : Option ℕ), (∀ s, st = some s → s < i0) →
    ∀ k, (∃ p ∈ scanRegions t scores i0 st, p.1 ≤ k ∧ k ≤ p.2) ↔
      ((∃ s, st = some s ∧ s ≤ k ∧ k < i0) ∨
        (i0 ≤ k ∧ k - i0 < scores.length ∧ t ≤ scores.getD (k - i0) 0)) := by
  induction scores with
  | nil =>
      intro i0 st hinv k
      rcases st with _ | s
      · simp [scanRegions]
      · have hs := hinv s rfl
        simp only [scanRegions, List.mem_singleton, List.length_nil, Option.some.injEq]
        constructor
        · rintro ⟨p, rfl, h1, h2⟩
          exact Or.inl ⟨s, rfl, h1, by omega⟩
        · rintro (⟨s', rfl, h1, h2⟩ | ⟨_, h, _⟩)
          · exact ⟨(s, i0 - 1), rfl, h1, by omega⟩
          · omega
  | cons sc rest ih =>
      intro i0 st hinv k
      have hged : i0 + 1 ≤ k → (sc :: rest).getD (k - i0) 0 = rest.getD (k - (i0 + 1)) 0 := by
        intro hk
        rw [show k - i0 = (k - (i0 + 1)) + 1 by omega, List.getD_cons_succ]
      have hged0 : k = i0 → (sc :: rest).getD (k - i0) 0 = sc := by
        intro hk
        rw [show k - i0 = 0 by omega, List.getD_cons_zero]
      rcases st with _ | s
      · by_cases hsc : t ≤ sc
        · rw [show scanRegions t (sc :: rest) i0 none =
              scanRegions t rest (i0 + 1) (some i0) by simp [scanRegions, hsc]]
          rw [ih (i0 + 1) (some i0) (by rintro s hs; injection hs with h; omega) k]
          simp only [Option.some.injEq, List.length_cons]
          constructor
          · rintro (⟨s', rfl, h1, h2⟩ | ⟨h1, h2, h3⟩)
            · refine Or.inr ⟨h1, by omega, ?_⟩
              rw [hged0 (by omega)]
              exact hsc
            · refine Or.inr ⟨by omega, by omega, ?_⟩
              rw [hged (by omega)]
              exact h3
          · rintro (⟨s', hs', _⟩ | ⟨h1, h2, h3⟩)
            · exact absurd hs' (by simp)
            · by_cases hk : k = i0
              · exact Or.inl ⟨i0, rfl, by omega, by omega⟩
              · refine Or.inr ⟨by omega, by omega, ?_⟩
                rw [← hged (by omega)]
                exact h3
        · rw [show scanRegions t (sc :: rest) i0 none =
              scanRegions t rest (i0 + 1) none by simp [scanRegions, hsc]]
          rw [ih (i0 + 1) none (by rintro s hs; cases hs) k]
          simp only [List.length_cons]
          constructor
          · rintro (⟨s', hs', _⟩ | ⟨h1, h2, h3⟩)
            · exact absurd hs' (by simp)
            · refine Or.inr ⟨by omega, by omega, ?_⟩
              rw [hged (by omega)]
              exact h3
          · rintro (⟨s', hs', _⟩ | ⟨h1, h2, h3⟩)
            · exact absurd hs' (by simp)
            · by_cases hk : k = i0
              · rw [hged0 hk] at h3
                exact absurd h3 hsc
              · refine Or.inr ⟨by omega, by omega, ?_⟩
                rw [← hged (by omega)]
                exact h3
      · have hs := hinv s rfl
        by_cases hsc : sc < t
        · rw [show scanRegions t (sc :: rest) i0 (some s) =
              (s, i0 - 1) :: scanRegions t rest (i0 + 1) none by simp [scanRegions, hsc]]
          simp only [List.mem_cons, List.length_cons, Option.some.injEq]
          constructor
          · rintro ⟨p, hp | hp, h1, h2⟩
            · subst hp
              exact Or.inl ⟨s, rfl, h1, by simp at h2 ⊢; omega⟩
            · have := (ih (i0 + 1) none (by rintro s' hs'; cases hs') k).mp ⟨p, hp, h1, h2⟩
              rcases this with ⟨s', hs', _⟩ | ⟨h1, h2, h3⟩
              · exact absurd hs' (by simp)
              · refine Or.inr ⟨by omega, by omega, ?_⟩
                rw [hged (by omega)]
                exact h3
          · rintro (⟨s', rfl, h1, h2⟩ | ⟨h1, h2, h3⟩)
            · exact ⟨(s, i0 - 1), Or.inl rfl, h1, by simp; omega⟩
            · by_cases hk : k = i0
              · rw [hged0 hk] at h3
                exact absurd h3 (not_le.mpr hsc)
              · obtain ⟨p, hp, hc1, hc2⟩ :=
                  (ih (i0 + 1) none (by rintro s' hs'; cases hs') k).mpr
                    (Or.inr ⟨by omega, by omega, by rw [← hged (by omega)]; exact h3⟩)
                exact ⟨p, Or.inr hp, hc1, hc2⟩
        · rw [show scanRegions t (sc :: rest) i0 (some s) =
              scanRegions t rest (i0 + 1) (some s) by simp [scanRegions, hsc]]
          rw [ih (i0 + 1) (some s) (by rintro s' hs'; injection hs' with h; omega) k]
          simp only [Option.some.injEq, List.length_cons]
          constructor
          · rintro (⟨s', rfl, h1, h2⟩ | ⟨h1, h2, h3⟩)
            · by_cases hk : k = i0
              · refine Or.inr ⟨by omega, by omega, ?_⟩
                rw [hged0 hk]
                exact not_lt.mp hsc
              · exact Or.inl ⟨s, rfl, h1, by omega⟩
            · refine Or.inr ⟨by omega, by omega, ?_⟩
              rw [hged (by omega)]
              exact h3
          · rintro (⟨s', rfl, h1, h2⟩ | ⟨h1, h2, h3⟩)
            · exact Or.inl ⟨s, rfl, h1, by omega⟩
            · by_cases hk : k = i0
              · exact Or.inl ⟨s, rfl, by omega, by omega⟩
              · refine Or.inr ⟨by omega, by omega, ?_⟩
                rw [← hged (by omega)]
                exact h3

/-- Shape invariant of the segmentation scan: every produced region is a
well-formed interval inside the scanned range, and the regions are pairwise
separated by a gap of at least one position. -/
theorem scanRegions_wf (t : ℚ) (scores : List ℚ) :
    ∀ (i0 : ℕ) (st : Option ℕ), (∀ s, st = some s → s < i0) →
    (∀ p ∈ scanRegions t scores i0 st,
        st.getD i0 ≤ p.1 ∧ p.1 ≤ p.2 ∧ p.2 + 1 ≤ i0 + scores.length) ∧
    List.Pairwise (fun p q : ℕ × ℕ => p.2 + 2 ≤ q.1) (scanRegions t scores i0 st) := by
  induction scores with
  | nil =>
      intro i0 st hinv
      rcases st with _ | s
      · simp [scanRegions]
      · have hs := hinv s rfl
        simp only [scanRegions, List.mem_singleton, List.pairwise_singleton, and_true]
        rintro p rfl
        simp only [Option.getD_some]
        omega
  | cons sc rest ih =>
      intro i0 st hinv
      rcases st with _ | s
      · by_cases hsc : t ≤ sc
        · rw [show scanRegions t (sc :: rest) i0 none =
              scanRegions t rest (i0 + 1) (some i0) by simp [scanRegions, hsc]]
          obtain ⟨hwf, hpw⟩ := ih (i0 + 1) (some i0) (by rintro s hs; injection hs with h; omega)
          refine ⟨?_, hpw⟩
          intro p hp
          have := hwf p hp
          simp only [Option.getD_some] at this
          simp only [Option.getD_none, List.length_cons]
          omega
        · rw [show scanRegions t (sc :: rest) i0 none =
              scanRegions t rest (i0 + 1) none by simp [scanRegions, hsc]]
          obtain ⟨hwf, hpw⟩ := ih (i0 + 1) none (by rintro s hs; cases hs)
          refine ⟨?_, hpw⟩
          intro p hp
          have := hwf p hp
          simp only [Option.getD_none, List.length_cons] at this ⊢
          omega
      · have hs := hinv s rfl
        by_cases hsc : sc < t
        · rw [show scanRegions t (sc :: rest) i0 (some s) =
              (s, i0 - 1) :: scanRegions t rest (i0 + 1) none by simp [scanRegions, hsc]]
          obtain ⟨hwf, hpw⟩ := ih (i0 + 1) none (by rintro s' hs'; cases hs')
          constructor
          · intro p hp0
            rcases List.mem_cons.mp hp0 with rfl | hp
            · simp only [Option.getD_some, List.length_cons]
              omega
            · have := hwf p hp
              simp only [Option.getD_none, List.length_cons] at this
              simp only [Option.getD_some, List.length_cons]
              omega
          · refine List.Pairwise.cons ?_ hpw
            intro q hq
            have := (hwf q hq).1
            simp only [Option.getD_none] at this
            omega
        · rw [show scanRegions t (sc :: rest) i0 (some s) =
              scanRegions t rest (i0 + 1) (some s) by simp [scanRegions, hsc]]
          obtain ⟨hwf, hpw⟩ := ih (i0 + 1) (some s) (by rintro s' hs'; injection hs' with h; omega)
          refine ⟨?_, hpw⟩
          intro p hp
          have := hwf p hp
          simp only [Option.getD_some, List.length_cons] at this ⊢
          omega

/-! ### Concrete-evaluation helpers

Rational arithmetic is evaluated by `norm_num`; character- and index-level
computation is evaluated by `decide`.  These lemmas bridge the two. -/

theorem localHydro_chars (s : List Char) (i : ℕ) (w : List Char)
    (hw : (windowIdx s i).map (fun j => s.getD j '*') = w) :
    localHydro s i = (w.map hydrophobicity).sum / (w.length : ℚ) := by
  unfold localHydro
  have h1 : (windowIdx s i).map (fun j => hydrophobicity (s.getD j '*'))
      = w.map hydrophobicity := by
    rw [← hw, List.map_map]
    rfl
  have h2 : (windowIdx s i).length = w.length := by
    rw [← hw, List.length_map]
  rw [h1, h2]

theorem chargeClustering_chars (s : List Char) (i : ℕ) (w : List Char)
    (hw : (windowIdx s i).map (fun j => s.getD j '*') = w) :
    chargeClustering s i = (w.map (fun x => |charge x|)).sum := by
  unfold chargeClustering
  have h1 : (windowIdx s i).map (fun j => |charge (s.getD j '*')|)
      = w.map (fun x => |charge x|) := by
    rw [← hw, List.map_map]
    rfl
  rw [h1]

theorem sum_map_ite_hits (p : ℕ → Prop) [DecidablePred p] (f : ℕ → ℚ) (l hits : List ℕ)
    (h : l.filter (fun j => decide (p j)) = hits) :
    (l.map (fun j => if p j then f j else 0)).sum = (hits.map f).sum := by
  subst h
  induction l with
  | nil => simp
  | cons a l ih =>
      by_cases h : p a <;> simp [List.filter_cons, h, ih]

theorem occContrib_eval (i j v : ℕ) (m : List Char)
    (h : (5 - Nat.dist i (j + m.length / 2) : ℕ) = v) :
    occContrib i j m = (v : ℚ) / 5 := by
  rw [occContrib, h]

theorem riskScore_eval (s : List Char) (i : ℕ) (c : Char) (w : List Char) (ms : ℚ)
    (hc : s.getD i '*' = c)
    (hw : (windowIdx s i).map (fun j => s.getD j '*') = w)
    (hm : motifScore s i = ms) :
    riskScore s i =
      min 100 (max 0 (max 0 (hydrophobicity c) * 10 + beta_propensity c * 15 +
        max 0 ((w.map hydrophobicity).sum / (w.length : ℚ)) * 8 +
        max 0 (3 - (w.map (fun x => |charge x|)).sum) * 5 + ms * 25)) := by
  unfold riskScore totalRisk hydroRisk betaRisk clusterRisk chargeRisk motifRisk
  rw [hc, hm, localHydro_chars s i w hw, chargeClustering_chars s i w hw]

theorem abs_neg_one_q : |(-1 : ℚ)| = 1 := by norm_num

theorem abs_half_q : |(1/2 : ℚ)| = 1/2 := by norm_num

/-- Upper-casing fixes the reference sequence. -/
theorem alphaSynPrefix_upper : alphaSynPrefix.map Char.toUpper = alphaSynPrefix := by decide

/-- On the 63-residue reference prefix, the motif scan finds exactly the
occurrences of KTKE at 31, 42, 57, of GVLY at 35, and of VLYVG at 36. -/
theorem motifScore_alphaSyn (i : ℕ) :
    motifScore alphaSynPrefix i =
      occContrib i 31 [ 'K', 'T', 'K', 'E' ] + occContrib i 42 [ 'K', 'T', 'K', 'E' ] +
      occContrib i 57 [ 'K', 'T', 'K', 'E' ] + occContrib i 35 [ 'G', 'V', 'L', 'Y' ] +
      occContrib i 36 [ 'V', 'L', 'Y', 'V', 'G' ] := by
  unfold motifScore aggregation_motifs
  simp only [List.map_cons, List.map_nil, List.sum_cons, List.sum_nil]
  rw [sum_map_ite_hits _ _ _ [] (by decide),
    sum_map_ite_hits _ _ _ [31, 42, 57] (by decide),
    sum_map_ite_hits _ _ _ [35] (by decide),
    sum_map_ite_hits _ _ _ [36] (by decide),
    sum_map_ite_hits _ _ _ [] (by decide)]
  simp only [List.map_cons, List.map_nil, List.sum_cons, List.sum_nil]
  ring

/-! ### Claim theorems -/

/-- Claim C1: `calculate_aggregation_risk` returns exactly one score per input
position, in input order, and every returned score lies in `[0, 100]`. -/
theorem claim1_scores_length_and_bounds (seq : List Char) :
    (calculate_aggregation_risk seq).length = seq.length ∧
    ∀ q ∈ calculate_aggregation_risk seq, 0 ≤ q ∧ q ≤ 100 := by
  refine ⟨calc_length seq, ?_⟩
  intro q hq
  obtain ⟨i, _, rfl⟩ := List.mem_map.mp hq
  unfold riskScore
  constructor
  · exact le_min (by norm_num) (le_max_left 0 _)
  · exact min_le_left 100 _

/-- Witness for C1 at the one-letter sequence `"A"`. -/
theorem claim1_scores_length_and_bounds_witness :
    0 ≤ (calculate_aggregation_risk [ 'A' ]).getD 0 0 ∧
      (calculate_aggregation_risk [ 'A' ]).getD 0 0 ≤ 100 := by
  have hlen : 0 < (calculate_aggregation_risk [ 'A' ]).length := by
    rw [calc_length]; decide
  have hmem : (calculate_aggregation_risk [ 'A' ]).getD 0 0 ∈ calculate_aggregation_risk [ 'A' ] := by
    rw [List.getD_eq_getElem _ _ hlen]
    exact List.getElem_mem hlen
  exact (claim1_scores_length_and_bounds [ 'A' ]).2 _ hmem

/-- Claim C2: `get_high_risk_regions` returns exactly the maximal contiguous
closed intervals (0-indexed, ascending, non-overlapping, separated by gaps) of
positions whose score is `>= t` (so a position scoring exactly `t` is included),
and on the score list `[10, 70, 80, 50, 65, 20]` with threshold 60 the scan
yields `[(1, 2), (4, 4)]`. -/
theorem claim2_regions_are_maximal_runs :
    (∀ (seq : List Char) (t : ℚ),
      (∀ p ∈ get_high_risk_regions seq t,
          p.1 ≤ p.2 ∧ p.2 < (calculate_aggregation_risk seq).length ∧
          ∀ k, p.1 ≤ k → k ≤ p.2 → t ≤ (calculate_aggregation_risk seq).getD k 0) ∧
      (∀ k, k < (calculate_aggregation_risk seq).length →
          t ≤ (calculate_aggregation_risk seq).getD k 0 →
          ∃ p ∈ get_high_risk_regions seq t, p.1 ≤ k ∧ k ≤ p.2) ∧
      List.Pairwise (fun p q : ℕ × ℕ => p.2 + 2 ≤ q.1) (get_high_risk_regions seq t) ∧
      (∀ p ∈ get_high_risk_regions seq t,
          (p.1 = 0 ∨ (calculate_aggregation_risk seq).getD (p.1 - 1) 0 < t) ∧
          (p.2 + 1 = (calculate_aggregation_risk seq).length ∨
            (calculate_aggregation_risk seq).getD (p.2 + 1) 0 < t))) ∧
    scanRegions 60 [10, 70, 80, 50, 65, 20] 0 none = [(1, 2), (4, 4)] := by
  constructor
  · intro seq t
    have hcov := scanRegions_cover t (calculate_aggregation_risk seq) 0 none
      (by rintro s hs; cases hs)
    have hwf := scanRegions_wf t (calculate_aggregation_risk seq) 0 none
      (by rintro s hs; cases hs)
    have hcov' : ∀ k, (∃ p ∈ get_high_risk_regions seq t, p.1 ≤ k ∧ k ≤ p.2) ↔
        (k < (calculate_aggregation_risk seq).length ∧
          t ≤ (calculate_aggregation_risk seq).getD k 0) := by
      intro k
      rw [show get_high_risk_regions seq t
          = scanRegions t (calculate_aggregation_risk seq) 0 none from rfl, hcov k]
      simp
    have hwf' : ∀ p ∈ get_high_risk_regions seq t,
        p.1 ≤ p.2 ∧ p.2 + 1 ≤ (calculate_aggregation_risk seq).length := by
      intro p hp
      have h := hwf.1 p hp
      refine ⟨h.2.1, ?_⟩
      have := h.2.2
      omega
    have hpw2 : ∀ a ∈ get_high_risk_regions seq t, ∀ b ∈ get_high_risk_regions seq t,
        a ≠ b → (a.2 + 2 ≤ b.1 ∨ b.2 + 2 ≤ a.1) :=
      List.Pairwise.forall (fun _ _ h => Or.symm h) (hwf.2.imp fun h => Or.inl h)
    refine ⟨?_, ?_, hwf.2, ?_⟩
    · intro p hp
      obtain ⟨h1, h2⟩ := hwf' p hp
      refine ⟨h1, by omega, ?_⟩
      intro k hk1 hk2
      exact ((hcov' k).mp ⟨p, hp, hk1, hk2⟩).2
    · intro k hk ht
      exact (hcov' k).mpr ⟨hk, ht⟩
    · intro p hp
      obtain ⟨h1, h2⟩ := hwf' p hp
      constructor
      · by_cases h0 : p.1 = 0
        · exact Or.inl h0
        · refine Or.inr ?_
          by_contra hge
          push_neg at hge
          obtain ⟨q, hq, hq1, hq2⟩ := (hcov' (p.1 - 1)).mpr ⟨by omega, hge⟩
          have hne : q ≠ p := by
            intro h
            subst h
            omega
          rcases hpw2 q hq p hp hne with h | h
          · omega
          · have := (hwf' q hq).1
            omega
      · by_cases hend : p.2 + 1 = (calculate_aggregation_risk seq).length
        · exact Or.inl hend
        · refine Or.inr ?_
          by_contra hge
          push_neg at hge
          obtain ⟨q, hq, hq1, hq2⟩ := (hcov' (p.2 + 1)).mpr ⟨by omega, hge⟩
          have hne : q ≠ p := by
            intro h
            subst h
            omega
          rcases hpw2 q hq p hp hne with h | h
          · omega
          · omega
  · decide

/-- Witness for C2: on the one-letter sequence `"V"` with threshold 50,
position 0 scores at least 50 and is covered by a returned region. -/
theorem claim2_regions_are_maximal_runs_witness :
    ∃ p ∈ get_high_risk_regions [ 'V' ] 50, p.1 ≤ 0 ∧ 0 ≤ p.2 := by
  have hup : ([ 'V' ] : List Char).map Char.toUpper = [ 'V' ] := by decide
  have hm : motifScore [ 'V' ] 0 = 0 := by
    simp +decide [motifScore, aggregation_motifs, motifStarts]
  have hsc : (50:ℚ) ≤ (calculate_aggregation_risk [ 'V' ]).getD 0 0 := by
    rw [calc_getD _ _ (by decide), hup,
      riskScore_eval [ 'V' ] 0 'V' [ 'V' ] 0 (by decide) (by decide) hm]
    simp +decide [hydrophobicity, beta_propensity, charge]
    norm_num [min_def, max_def]
  exact (claim2_regions_are_maximal_runs.1 [ 'V' ] 50).2.1 0
    (by rw [calc_length]; decide) hsc

/-- Position 31 of the reference prefix scores below 60. -/
theorem alphaSyn_low_31 :
    (calculate_aggregation_risk alphaSynPrefix).getD 31 0 < 60 := by
  have hm : motifScore alphaSynPrefix 31 = 3/5 := by
    rw [motifScore_alphaSyn, occContrib_eval 31 31 3 _ (by decide),
      occContrib_eval 31 42 0 _ (by decide),
      occContrib_eval 31 57 0 _ (by decide),
      occContrib_eval 31 35 0 _ (by decide),
      occContrib_eval 31 36 0 _ (by decide)]
    norm_num
  rw [calc_getD _ _ (by decide), alphaSynPrefix_upper,
    riskScore_eval alphaSynPrefix 31 'K' [ 'A', 'G', 'K', 'T', 'K' ] (3/5)
      (by decide) (by decide) hm]
  simp +decide [hydrophobicity, beta_propensity, charge]
  norm_num [min_def, max_def, abs_neg_one_q, abs_half_q]

/-- Position 32 of the reference prefix scores below 60. -/
theorem alphaSyn_low_32 :
    (calculate_aggregation_risk alphaSynPrefix).getD 32 0 < 60 := by
  have hm : motifScore alphaSynPrefix 32 = 4/5 := by
    rw [motifScore_alphaSyn, occContrib_eval 32 31 4 _ (by decide),
      occContrib_eval 32 42 0 _ (by decide),
      occContrib_eval 32 57 0 _ (by decide),
      occContrib_eval 32 35 0 _ (by decide),
      occContrib_eval 32 36 0 _ (by decide)]
    norm_num
  rw [calc_getD _ _ (by decide), alphaSynPrefix_upper,
    riskScore_eval alphaSynPrefix 32 'T' [ 'G', 'K', 'T', 'K', 'E' ] (4/5)
      (by decide) (by decide) hm]
  simp +decide [hydrophobicity, beta_propensity, charge]
  norm_num [min_def, max_def, abs_neg_one_q, abs_half_q]

/-- Position 33 of the reference prefix scores below 60. -/
theorem alphaSyn_low_33 :
    (calculate_aggregation_risk alphaSynPrefix).getD 33 0 < 60 := by
  have hm : motifScore alphaSynPrefix 33 = 6/5 := by
    rw [motifScore_alphaSyn, occContrib_eval 33 31 5 _ (by decide),
      occContrib_eval 33 42 0 _ (by decide),
      occContrib_eval 33 57 0 _ (by decide),
      occContrib_eval 33 35 1 _ (by decide),
      occContrib_eval 33 36 0 _ (by decide)]
    norm_num
  rw [calc_getD _ _ (by decide), alphaSynPrefix_upper,
    riskScore_eval alphaSynPrefix 33 'K' [ 'K', 'T', 'K', 'E', 'G' ] (6/5)
      (by decide) (by decide) hm]
  simp +decide [hydrophobicity, beta_propensity, charge]
  norm_num [min_def, max_def, abs_neg_one_q, abs_half_q]

/-- Position 34 of the reference prefix scores below 60. -/
theorem alphaSyn_low_34 :
    (calculate_aggregation_risk alphaSynPrefix).getD 34 0 < 60 := by
  have hm : motifScore alphaSynPrefix 34 = 7/5 := by
    rw [motifScore_alphaSyn, occContrib_eval 34 31 4 _ (by decide),
      occContrib_eval 34 42 0 _ (by decide),
      occContrib_eval 34 57 0 _ (by decide),
      occContrib_eval 34 35 2 _ (by decide),
      occContrib_eval 34 36 1 _ (by decide)]
    norm_num
  rw [calc_getD _ _ (by decide), alphaSynPrefix_upper,
    riskScore_eval alphaSynPrefix 34 'E' [ 'T', 'K', 'E', 'G', 'V' ] (7/5)
      (by decide) (by decide) hm]
  simp +decide [hydrophobicity, beta_propensity, charge]
  norm_num [min_def, max_def, abs_neg_one_q, abs_half_q]

/-- Position 42 of the reference prefix scores below 60. -/
theorem alphaSyn_low_42 :
    (calculate_aggregation_risk alphaSynPrefix).getD 42 0 < 60 := by
  have hm : motifScore alphaSynPrefix 42 = 4/5 := by
    rw [motifScore_alphaSyn, occContrib_eval 42 31 0 _ (by decide),
      occContrib_eval 42 42 3 _ (by decide),
      occContrib_eval 42 57 0 _ (by decide),
      occContrib_eval 42 35 0 _ (by decide),
      occContrib_eval 42 36 1 _ (by decide)]
    norm_num
  rw [calc_getD _ _ (by decide), alphaSynPrefix_upper,
    riskScore_eval alphaSynPrefix 42 'K' [ 'G', 'S', 'K', 'T', 'K' ] (4/5)
      (by decide) (by decide) hm]
  simp +decide [hydrophobicity, beta_propensity, charge]
  norm_num [min_def, max_def, abs_neg_one_q, abs_half_q]

/-- Position 43 of the reference prefix scores below 60. -/
theorem alphaSyn_low_43 :
    (calculate_aggregation_risk alphaSynPrefix).getD 43 0 < 60 := by
  have hm : motifScore alphaSynPrefix 43 = 4/5 := by
    rw [motifScore_alphaSyn, occContrib_eval 43 31 0 _ (by decide),
      occContrib_eval 43 42 4 _ (by decide),
      occContrib_eval 43 57 0 _ (by decide),
      occContrib_eval 43 35 0 _ (by decide),
      occContrib_eval 43 36 0 _ (by decide)]
    norm_num
  rw [calc_getD _ _ (by decide), alphaSynPrefix_upper,
    riskScore_eval alphaSynPrefix 43 'T' [ 'S', 'K', 'T', 'K', 'E' ] (4/5)
      (by decide) (by decide) hm]
  simp +decide [hydrophobicity, beta_propensity, charge]
  norm_num [min_def, max_def, abs_neg_one_q, abs_half_q]

/-- Position 44 of the reference prefix scores below 60. -/
theorem alphaSyn_low_44 :
    (calculate_aggregation_risk alphaSynPrefix).getD 44 0 < 60 := by
  have hm : motifScore alphaSynPrefix 44 = 1 := by
    rw [motifScore_alphaSyn, occContrib_eval 44 31 0 _ (by decide),
      occContrib_eval 44 42 5 _ (by decide),
      occContrib_eval 44 57 0 _ (by decide),
      occContrib_eval 44 35 0 _ (by decide),
      occContrib_eval 44 36 0 _ (by decide)]
    norm_num
  rw [calc_getD _ _ (by decide), alphaSynPrefix_upper,
    riskScore_eval alphaSynPrefix 44 'K' [ 'K', 'T', 'K', 'E', 'G' ] (1)
      (by decide) (by decide) hm]
  simp +decide [hydrophobicity, beta_propensity, charge]
  norm_num [min_def, max_def, abs_neg_one_q, abs_half_q]

/-- Position 45 of the reference prefix scores below 60. -/
theorem alphaSyn_low_45 :
    (calculate_aggregation_risk alphaSynPrefix).getD 45 0 < 60 := by
  have hm : motifScore alphaSynPrefix 45 = 4/5 := by
    rw [motifScore_alphaSyn, occContrib_eval 45 31 0 _ (by decide),
      occContrib_eval 45 42 4 _ (by decide),
      occContrib_eval 45 57 0 _ (by decide),
      occContrib_eval 45 35 0 _ (by decide),
      occContrib_eval 45 36 0 _ (by decide)]
    norm_num
  rw [calc_getD _ _ (by decide), alphaSynPrefix_upper,
    riskScore_eval alphaSynPrefix 45 'E' [ 'T', 'K', 'E', 'G', 'V' ] (4/5)
      (by decide) (by decide) hm]
  simp +decide [hydrophobicity, beta_propensity, charge]
  norm_num [min_def, max_def, abs_neg_one_q, abs_half_q]

/-- Position 57 of the reference prefix scores below 60. -/
theorem alphaSyn_low_57 :
    (calculate_aggregation_risk alphaSynPrefix).getD 57 0 < 60 := by
  have hm : motifScore alphaSynPrefix 57 = 3/5 := by
    rw [motifScore_alphaSyn, occContrib_eval 57 31 0 _ (by decide),
      occContrib_eval 57 42 0 _ (by decide),
      occContrib_eval 57 57 3 _ (by decide),
      occContrib_eval 57 35 0 _ (by decide),
      occContrib_eval 57 36 0 _ (by decide)]
    norm_num
  rw [calc_getD _ _ (by decide), alphaSynPrefix_upper,
    riskScore_eval alphaSynPrefix 57 'K' [ 'A', 'E', 'K', 'T', 'K' ] (3/5)
      (by decide) (by decide) hm]
  simp +decide [hydrophobicity, beta_propensity, charge]
  norm_num [min_def, max_def, abs_neg_one_q, abs_half_q]

/-- Position 58 of the reference prefix scores below 60. -/
theorem alphaSyn_low_58 :
    (calculate_aggregation_risk alphaSynPrefix).getD 58 0 < 60 := by
  have hm : motifScore alphaSynPrefix 58 = 4/5 := by
    rw [motifScore_alphaSyn, occContrib_eval 58 31 0 _ (by decide),
      occContrib_eval 58 42 0 _ (by decide),
      occContrib_eval 58 57 4 _ (by decide),
      occContrib_eval 58 35 0 _ (by decide),
      occContrib_eval 58 36 0 _ (by decide)]
    norm_num
  rw [calc_getD _ _ (by decide), alphaSynPrefix_upper,
    riskScore_eval alphaSynPrefix 58 'T' [ 'E', 'K', 'T', 'K', 'E' ] (4/5)
      (by decide) (by decide) hm]
  simp +decide [hydrophobicity, beta_propensity, charge]
  norm_num [min_def, max_def, abs_neg_one_q, abs_half_q]

/-- Position 59 of the reference prefix scores below 60. -/
theorem alphaSyn_low_59 :
    (calculate_aggregation_risk alphaSynPrefix).getD 59 0 < 60 := by
  have hm : motifScore alphaSynPrefix 59 = 1 := by
    rw [motifScore_alphaSyn, occContrib_eval 59 31 0 _ (by decide),
      occContrib_eval 59 42 0 _ (by decide),
      occContrib_eval 59 57 5 _ (by decide),
      occContrib_eval 59 35 0 _ (by decide),
      occContrib_eval 59 36 0 _ (by decide)]
    norm_num
  rw [calc_getD _ _ (by decide), alphaSynPrefix_upper,
    riskScore_eval alphaSynPrefix 59 'K' [ 'K', 'T', 'K', 'E', 'Q' ] (1)
      (by decide) (by decide) hm]
  simp +decide [hydrophobicity, beta_propensity, charge]
  norm_num [min_def, max_def, abs_neg_one_q, abs_half_q]

/-- Position 60 of the reference prefix scores below 60. -/
theorem alphaSyn_low_60 :
    (calculate_aggregation_risk alphaSynPrefix).getD 60 0 < 60 := by
  have hm : motifScore alphaSynPrefix 60 = 4/5 := by
    rw [motifScore_alphaSyn, occContrib_eval 60 31 0 _ (by decide),
      occContrib_eval 60 42 0 _ (by decide),
      occContrib_eval 60 57 4 _ (by decide),
      occContrib_eval 60 35 0 _ (by decide),
      occContrib_eval 60 36 0 _ (by decide)]
    norm_num
  rw [calc_getD _ _ (by decide), alphaSynPrefix_upper,
    riskScore_eval alphaSynPrefix 60 'E' [ 'T', 'K', 'E', 'Q', 'V' ] (4/5)
      (by decide) (by decide) hm]
  simp +decide [hydrophobicity, beta_propensity, charge]
  norm_num [min_def, max_def, abs_neg_one_q, abs_half_q]

/-- On the reference prefix, every position inside a KTKE occurrence span
scores strictly below 60. -/
theorem alphaSyn_low_scores :
    ∀ k ∈ ([31, 32, 33, 34, 42, 43, 44, 45, 57, 58, 59, 60] : List ℕ),
      (calculate_aggregation_risk alphaSynPrefix).getD k 0 < 60 := by
  intro k hk
  fin_cases hk
  · exact alphaSyn_low_31
  · exact alphaSyn_low_32
  · exact alphaSyn_low_33
  · exact alphaSyn_low_34
  · exact alphaSyn_low_42
  · exact alphaSyn_low_43
  · exact alphaSyn_low_44
  · exact alphaSyn_low_45
  · exact alphaSyn_low_57
  · exact alphaSyn_low_58
  · exact alphaSyn_low_59
  · exact alphaSyn_low_60

/-- Position 2 of the reference prefix scores at least 60. -/
theorem alphaSyn_score2 : (60:ℚ) ≤ (calculate_aggregation_risk alphaSynPrefix).getD 2 0 := by
  have hm : motifScore alphaSynPrefix 2 = 0 := by
    rw [motifScore_alphaSyn, occContrib_eval 2 31 0 _ (by decide),
      occContrib_eval 2 42 0 _ (by decide), occContrib_eval 2 57 0 _ (by decide),
      occContrib_eval 2 35 0 _ (by decide), occContrib_eval 2 36 0 _ (by decide)]
    norm_num
  rw [calc_getD _ _ (by decide), alphaSynPrefix_upper,
    riskScore_eval alphaSynPrefix 2 'V' [ 'M', 'D', 'V', 'F', 'M' ] 0
      (by decide) (by decide) hm]
  simp +decide [hydrophobicity, beta_propensity, charge]
  norm_num [min_def, max_def, abs_neg_one_q, abs_half_q]

/-- No returned region overlaps any KTKE occurrence in the reference prefix at
threshold 60. -/
theorem alphaSyn_no_ktke_overlap :
    ∀ p ∈ get_high_risk_regions alphaSynPrefix 60, ∀ j,
      (alphaSynPrefix.drop j).take 4 = [ 'K', 'T', 'K', 'E' ] →
      j + 4 ≤ alphaSynPrefix.length → ¬(p.1 ≤ j + 3 ∧ j ≤ p.2) := by
  rintro p hp j hocc hlen ⟨hov1, hov2⟩
  have hlen63 : alphaSynPrefix.length = 63 := by decide
  have hj : j = 31 ∨ j = 42 ∨ j = 57 := by
    have hj' : ∀ j' < 60, (alphaSynPrefix.drop j').take 4 = [ 'K', 'T', 'K', 'E' ] →
        j' = 31 ∨ j' = 42 ∨ j' = 57 := by decide
    exact hj' j (by omega) hocc
  have hwf := scanRegions_wf 60 (calculate_aggregation_risk alphaSynPrefix) 0 none
    (by rintro s hs; cases hs)
  have hple := (hwf.1 p hp).2.1
  have hcov := scanRegions_cover 60 (calculate_aggregation_risk alphaSynPrefix) 0 none
    (by rintro s hs; cases hs) (max p.1 j)
  rcases hcov.mp ⟨p, hp, le_max_left _ _, max_le hple hov2⟩ with ⟨s, hs, -⟩ | ⟨-, -, hge⟩
  · cases hs
  · rw [Nat.sub_zero] at hge
    have hkmem : max p.1 j ∈ ([31, 32, 33, 34, 42, 43, 44, 45, 57, 58, 59, 60] : List ℕ) := by
      have h1 : j ≤ max p.1 j := le_max_right _ _
      have h2 : max p.1 j ≤ j + 3 := max_le hov1 (by omega)
      rcases hj with rfl | rfl | rfl <;> simp <;> omega
    exact absurd hge (not_le.mpr (alphaSyn_low_scores _ hkmem))

/-- At threshold 60 the reference prefix has at least one high-risk region. -/
theorem alphaSyn_regions_ne_nil : get_high_risk_regions alphaSynPrefix 60 ≠ [] := by
  have hcov := scanRegions_cover 60 (calculate_aggregation_risk alphaSynPrefix) 0 none
    (by rintro s hs; cases hs) 2
  obtain ⟨p, hp, -⟩ := hcov.mpr (Or.inr ⟨by omega, by rw [calc_length]; decide,
    by rw [Nat.sub_zero]; exact alphaSyn_score2⟩)
  exact List.ne_nil_of_mem hp

/-- Claim C5 as stated is false at the reference input: at threshold 60 the
returned region list is non-empty, but no returned interval overlaps the span
`[j, j+3]` of any occurrence of KTKE (occurrences start at 31, 42 and 57, whose
spans all score below 60). -/
theorem claim5_counterexample :
    ¬(get_high_risk_regions alphaSynPrefix 60 ≠ [] ∧
      ∃ p ∈ get_high_risk_regions alphaSynPrefix 60, ∃ j,
        (alphaSynPrefix.drop j).take 4 = [ 'K', 'T', 'K', 'E' ] ∧
        j + 4 ≤ alphaSynPrefix.length ∧ p.1 ≤ j + 3 ∧ j ≤ p.2) := by
  rintro ⟨-, p, hp, j, hocc, hlen, hov1, hov2⟩
  exact alphaSyn_no_ktke_overlap p hp j hocc hlen ⟨hov1, hov2⟩

/-- C5 amended: at threshold 60 the reference prefix yields a non-empty region
list, but none of the returned intervals overlaps the positions `[j, j+3]` of
any occurrence of the substring KTKE. -/
theorem claim5_amended_regions :
    get_high_risk_regions alphaSynPrefix 60 ≠ [] ∧
    ∀ p ∈ get_high_risk_regions alphaSynPrefix 60, ∀ j,
      (alphaSynPrefix.drop j).take 4 = [ 'K', 'T', 'K', 'E' ] →
      j + 4 ≤ alphaSynPrefix.length → ¬(p.1 ≤ j + 3 ∧ j ≤ p.2) :=
  ⟨alphaSyn_regions_ne_nil, alphaSyn_no_ktke_overlap⟩

/-- Witness for the amended C5, applied at the KTKE occurrence `j = 31`. -/
theorem claim5_amended_regions_witness :
    ¬∃ p ∈ get_high_risk_regions alphaSynPrefix 60, p.1 ≤ 34 ∧ 31 ≤ p.2 := by
  rintro ⟨p, hp, h1, h2⟩
  exact claim5_amended_regions.2 p hp 31 (by decide) (by decide) ⟨h1, h2⟩

/-- Claim C9: on the empty sequence every operation returns an empty result. -/
theorem claim9_empty_inputs :
    calculate_aggregation_risk [] = [] ∧
    (∀ t : ℚ, get_high_risk_regions [] t = []) ∧
    get_color_map [] = [] :=
  ⟨rfl, fun _ => rfl, rfl⟩

/-! ### Motif-score refinement helpers -/

theorem natdist_int (i c : ℕ) :
    ((5 - Nat.dist i c : ℕ) : ℤ) = max 0 (5 - |(i : ℤ) - (c : ℤ)|) := by
  rcases le_total i c with h | h
  · rw [Nat.dist_eq_sub_of_le h, abs_of_nonpos (by omega)]
    omega
  · rw [Nat.dist_eq_sub_of_le_right h, abs_of_nonneg (by omega)]
    omega

theorem occContrib_int (i j : ℕ) (m : List Char) :
    occContrib i j m =
      ((max 0 (5 - |(i : ℤ) - ((j + m.length / 2 : ℕ) : ℤ)|) : ℤ) : ℚ) / 5 := by
  rw [occContrib, ← natdist_int, Int.cast_natCast]

theorem motif_inner_eq (s : List Char) (i : ℕ) (m : List Char) :
    ((motifStarts s m).map (fun j =>
      if (s.drop j).take m.length = m then occContrib i j m else 0)).sum =
    ∑ j in (Finset.range (s.length + 1)).filter
        (fun j => j + m.length ≤ s.length ∧ (s.drop j).take m.length = m),
      ((max 0 (5 - |(i : ℤ) - ((j + m.length / 2 : ℕ) : ℤ)|) : ℤ) : ℚ) / 5 := by
  simp only [← occContrib_int]
  rw [Finset.sum_filter]
  by_cases hml : m.length ≤ s.length
  · rw [motifStarts, if_pos hml, list_sum_range_map]
    have hsub : Finset.range (s.length - m.length + 1) ⊆ Finset.range (s.length + 1) :=
      Finset.range_subset.mpr (by omega)
    have hzero : ∀ x ∈ Finset.range (s.length + 1),
        x ∉ Finset.range (s.length - m.length + 1) →
        (if x + m.length ≤ s.length ∧ (s.drop x).take m.length = m
          then occContrib i x m else 0) = 0 := by
      intro x hx hnx
      have hxn : ¬(x + m.length ≤ s.length) := by
        simp only [Finset.mem_range] at hx hnx
        omega
      simp [hxn]
    rw [← Finset.sum_subset hsub hzero]
    apply Finset.sum_congr rfl
    intro j hj
    have hjle : j + m.length ≤ s.length := by
      simp only [Finset.mem_range] at hj
      omega
    simp [hjle]
  · rw [motifStarts, if_neg hml]
    simp only [List.map_nil, List.sum_nil]
    symm
    apply Finset.sum_eq_zero
    intro j hj
    have : ¬(j + m.length ≤ s.length) := by omega
    simp [this]

/-- Claim C3: each position's score equals the weighted feature combination
clamped once to `[0, 100]` after the summation, with the exact coefficients
10, 15, 8, 5 and 25. -/
theorem claim3_score_formula (seq : List Char) (i : ℕ) (h : i < seq.length) :
    (calculate_aggregation_risk seq).getD i 0 =
      min 100 (max 0
        (max 0 (hydrophobicity ((seq.map Char.toUpper).getD i '*')) * 10 +
         beta_propensity ((seq.map Char.toUpper).getD i '*') * 15 +
         max 0 (localHydro (seq.map Char.toUpper) i) * 8 +
         max 0 (3 - chargeClustering (seq.map Char.toUpper) i) * 5 +
         motifScore (seq.map Char.toUpper) i * 25)) := by
  rw [calc_getD seq i h]
  rfl

/-- Witness for C3 at the one-letter sequence `"A"`, position 0. -/
theorem claim3_score_formula_witness :
    0 < ([ 'A' ] : List Char).length ∧
    (calculate_aggregation_risk [ 'A' ]).getD 0 0 =
      min 100 (max 0
        (max 0 (hydrophobicity (([ 'A' ].map Char.toUpper).getD 0 '*')) * 10 +
         beta_propensity (([ 'A' ].map Char.toUpper).getD 0 '*') * 15 +
         max 0 (localHydro ([ 'A' ].map Char.toUpper) 0) * 8 +
         max 0 (3 - chargeClustering ([ 'A' ].map Char.toUpper) 0) * 5 +
         motifScore ([ 'A' ].map Char.toUpper) 0 * 25)) :=
  ⟨by decide, claim3_score_formula [ 'A' ] 0 (by decide)⟩

/-- Claim C4: the motif score is exactly the spec's sum of linearly decayed
contributions over all motif occurrences; a position at an occurrence's center
receives 1 from it, a position at distance 5 or more receives 0 from it, and a
motif longer than the sequence is scanned over no start index at all. -/
theorem claim4_motif_score :
    (∀ (s : List Char) (i : ℕ), motifScore s i = motifScoreSpec s i) ∧
    (∀ (j : ℕ) (m : List Char), occContrib (j + m.length / 2) j m = 1) ∧
    (∀ (i j : ℕ) (m : List Char), 5 ≤ Nat.dist i (j + m.length / 2) →
      occContrib i j m = 0) ∧
    (∀ (s m : List Char), s.length < m.length → motifStarts s m = []) := by
  refine ⟨?_, ?_, ?_, ?_⟩
  · intro s i
    unfold motifScore motifScoreSpec
    simp only [motif_inner_eq]
  · intro j m
    rw [occContrib, Nat.dist_self]
    norm_num
  · intro i j m h
    rw [occContrib, show (5 - Nat.dist i (j + m.length / 2) : ℕ) = 0 by omega]
    norm_num
  · intro s m h
    rw [motifStarts, if_neg (by omega)]

/-- Witness for C4: decayed-to-zero contribution and a too-long motif. -/
theorem claim4_motif_score_witness :
    5 ≤ Nat.dist 0 (10 + ([ 'N', 'A', 'C' ] : List Char).length / 2) ∧
    occContrib 0 10 [ 'N', 'A', 'C' ] = 0 ∧
    ([ 'A' ] : List Char).length < ([ 'N', 'A', 'C' ] : List Char).length ∧
    motifStarts [ 'A' ] [ 'N', 'A', 'C' ] = [] :=
  ⟨by decide, claim4_motif_score.2.2.1 0 10 _ (by decide), by decide,
   claim4_motif_score.2.2.2 [ 'A' ] _ (by decide)⟩

/-- Claim C6: `get_color_map` maps each score positionally through the fixed
five-bucket breakpoints 20/40/60/80 (half-open below, top bucket closed at
100), and the bucket rank is non-decreasing in the score. -/
theorem claim6_color_buckets :
    (∀ scores : List ℚ, (get_color_map scores).length = scores.length ∧
      ∀ i, i < scores.length → (get_color_map scores).getD i "" = colorOf (scores.getD i 0)) ∧
    (∀ q : ℚ,
      (0 ≤ q → q < 20 → colorOf q = "#00FF00") ∧
      (20 ≤ q → q < 40 → colorOf q = "#80FF00") ∧
      (40 ≤ q → q < 60 → colorOf q = "#FFFF00") ∧
      (60 ≤ q → q < 80 → colorOf q = "#FF8000") ∧
      (80 ≤ q → q ≤ 100 → colorOf q = "#FF0000")) ∧
    (∀ q : ℚ, colorRank (colorOf q) < 5) ∧
    (∀ a b : ℚ, a ≤ b → colorRank (colorOf a) ≤ colorRank (colorOf b)) := by
  refine ⟨?_, ?_, ?_, ?_⟩
  · intro scores
    refine ⟨List.length_map scores colorOf, ?_⟩
    intro i hi
    have hi2 : i < (get_color_map scores).length := by
      rw [get_color_map, List.length_map]
      exact hi
    rw [List.getD_eq_getElem _ _ hi2, List.getD_eq_getElem _ _ hi]
    simp [get_color_map]
  · intro q
    refine ⟨?_, ?_, ?_, ?_, ?_⟩ <;> intro h1 h2 <;> unfold colorOf <;>
      split_ifs <;> first | rfl | linarith
  · intro q
    unfold colorOf
    split_ifs <;> simp [colorRank]
  · intro a b hab
    unfold colorOf
    split_ifs <;> first | linarith | simp [colorRank]

/-- Witness for C6 at concrete scores 25, 10 and 70. -/
theorem claim6_color_buckets_witness :
    (get_color_map [ (25:ℚ) ]).getD 0 "" = colorOf (([ (25:ℚ) ]).getD 0 0) ∧
    colorOf 25 = "#80FF00" ∧
    colorRank (colorOf 10) ≤ colorRank (colorOf 70) :=
  ⟨(claim6_color_buckets.1 [ 25 ]).2 0 (by decide),
   (claim6_color_buckets.2.1 25).2.1 (by decide) (by decide),
   claim6_color_buckets.2.2.2 10 70 (by decide)⟩

/-- Claim C7: `local_hydrophobicity` averages over the window clipped to the
sequence ends; at position 0 it is the mean over positions 0, 1, 2. -/
theorem claim7_window_clipping :
    (∀ s : List Char, 3 ≤ s.length →
      localHydro s 0 = (hydrophobicity (s.getD 0 '*') + hydrophobicity (s.getD 1 '*') +
        hydrophobicity (s.getD 2 '*')) / 3) ∧
    (∀ (s : List Char) (i : ℕ), i < s.length →
      localHydro s i =
        (∑ j in Finset.Icc (i - 2) (min (s.length - 1) (i + 2)),
          hydrophobicity (s.getD j '*')) /
        ((Finset.Icc (i - 2) (min (s.length - 1) (i + 2))).card : ℚ)) := by
  have hgen : ∀ (s : List Char) (i : ℕ), i < s.length →
      localHydro s i =
        (∑ j in Finset.Icc (i - 2) (min (s.length - 1) (i + 2)),
          hydrophobicity (s.getD j '*')) /
        ((Finset.Icc (i - 2) (min (s.length - 1) (i + 2))).card : ℚ) := by
    intro s i h
    unfold localHydro windowIdx
    rw [list_sum_range'_map]
    have ha : (i - 2) + (min s.length (i + 3) - (i - 2)) = min s.length (i + 3) := by
      omega
    have hIcc : Finset.Icc (i - 2) (min (s.length - 1) (i + 2))
        = Finset.Ico (i - 2) (min s.length (i + 3)) := by
      rw [← Nat.Ico_succ_right]
      congr 1
      omega
    rw [ha, hIcc, List.length_range', Nat.card_Ico]
  refine ⟨?_, hgen⟩
  intro s h3
  rw [hgen s 0 (by omega)]
  have hmin : min (s.length - 1) 2 = 2 := by omega
  have h02 : Finset.Icc (0 - 2) 2 = {0, 1, 2} := by decide
  rw [hmin, h02]
  rw [Finset.sum_insert (by decide), Finset.sum_insert (by decide), Finset.sum_singleton]
  norm_num
  ring

/-- Witness for C7 at the four-letter sequence `"AVIL"`, position 0. -/
theorem claim7_window_clipping_witness :
    3 ≤ ([ 'A', 'V', 'I', 'L' ] : List Char).length ∧
    localHydro [ 'A', 'V', 'I', 'L' ] 0 =
      (hydrophobicity (([ 'A', 'V', 'I', 'L' ] : List Char).getD 0 '*') +
       hydrophobicity (([ 'A', 'V', 'I', 'L' ] : List Char).getD 1 '*') +
       hydrophobicity (([ 'A', 'V', 'I', 'L' ] : List Char).getD 2 '*')) / 3 :=
  ⟨by decide, claim7_window_clipping.1 [ 'A', 'V', 'I', 'L' ] (by decide)⟩

/-- Claim C8: a character outside the 20 recognized codes is non-fatal: every
property-table lookup on it yields the neutral value 0 (this covers the direct
lookups and the window and clustering features, which use the same tables), and
scoring still returns one value per position. -/
theorem claim8_unknown_codes :
    (∀ c : Char, c ∉ aminoAcidCodes →
      hydrophobicity c = 0 ∧ charge c = 0 ∧ beta_propensity c = 0) ∧
    (∀ seq : List Char, (calculate_aggregation_risk seq).length = seq.length) :=
  ⟨table_defaults, calc_length⟩

/-- Witness for C8 at the unrecognized code `X`. -/
theorem claim8_unknown_codes_witness :
    'X' ∉ aminoAcidCodes ∧
    hydrophobicity 'X' = 0 ∧ charge 'X' = 0 ∧ beta_propensity 'X' = 0 :=
  ⟨by decide, claim8_unknown_codes.1 'X' (by decide)⟩

/-- Claim C10: all five risk terms are non-negative (beta because every table
entry is positive and the default is 0), so the pre-clamp total is non-negative
and the final score is just `min 100 total_risk`. -/
theorem claim10_lower_clamp_never_fires :
    (∀ (s : List Char) (i : ℕ),
      0 ≤ hydroRisk s i ∧ 0 ≤ betaRisk s i ∧ 0 ≤ clusterRisk s i ∧
      0 ≤ chargeRisk s i ∧ 0 ≤ motifRisk s i ∧ 0 ≤ totalRisk s i) ∧
    (∀ c : Char, 0 ≤ beta_propensity c) ∧
    (∀ (seq : List Char) (i : ℕ), i < seq.length →
      (calculate_aggregation_risk seq).getD i 0 =
        min 100 (totalRisk (seq.map Char.toUpper) i)) := by
  refine ⟨?_, beta_propensity_nonneg, ?_⟩
  · intro s i
    exact ⟨mul_nonneg (le_max_left 0 _) (by norm_num),
      mul_nonneg (beta_propensity_nonneg _) (by norm_num),
      mul_nonneg (le_max_left 0 _) (by norm_num),
      mul_nonneg (le_max_left 0 _) (by norm_num),
      mul_nonneg (motifScore_nonneg s i) (by norm_num),
      totalRisk_nonneg s i⟩
  · intro seq i h
    rw [calc_getD seq i h]
    unfold riskScore
    rw [max_eq_right (totalRisk_nonneg _ _)]

/-- Witness for C10 at the one-letter sequence `"A"`, position 0. -/
theorem claim10_lower_clamp_never_fires_witness :
    0 < ([ 'A' ] : List Char).length ∧
    (calculate_aggregation_risk [ 'A' ]).getD 0 0 =
      min 100 (totalRisk ([ 'A' ].map Char.toUpper) 0) :=
  ⟨by decide, claim10_lower_clamp_never_fires.2.2 [ 'A' ] 0 (by decide)⟩

/-- Witness for C9 at an arbitrary threshold. -/
theorem claim9_empty_inputs_witness : get_high_risk_regions [] 37 = [] :=
  claim9_empty_inputs.2.1 37
